import Mathlib

set_option maxRecDepth 8000

/-! Shallow embedding of the ytranscript crate (src/fetch.rs, src/regex.rs,
src/types.rs, src/errors.rs).

Strings are lists of Unicode scalar values; Rust `str::len`, which counts
UTF-8 bytes, is modelled by `utf8Len`.  Floating-point values are modelled
exactly: finite values as rationals together with the two infinities and NaN.
The claims observe only parse success, the sign of values and simple decimal
values, none of which depend on binary rounding.

The two network calls of `fetch_transcript` are modelled as oracles: the
watch-page body and the transcript body are inputs of the corresponding stage
functions.  The JSON extraction of steps 8-10 of fetch.rs is not needed by
any claim; the stage functions below start from the watch-page body (steps
6-7) and from the extracted caption-track list (steps 11-14).  A caption
track is modelled with `Option` fields: the code observes a track only
through `get("languageCode")`/`get("baseUrl")` followed by `as_str` or by
equality with a JSON string, so a missing field and a non-string field are
indistinguishable and both are modelled as `none`.  A Rust panic (an
`unwrap` of `None` or an out-of-bounds index) is the `panic` outcome of
`Res`. -/

abbrev Str := List Char

deriving instance DecidableEq for Except

/-- Number of bytes of the UTF-8 encoding of one scalar value. -/
def charBytes (c : Char) : Nat :=
  if c.toNat < 128 then 1
  else if c.toNat < 2048 then 2
  else if c.toNat < 65536 then 3
  else 4

/-- Rust `str::len`: the length of the UTF-8 encoding in bytes. -/
def utf8Len (cs : Str) : Nat := (cs.map charBytes).sum

/-- Model of an `f64` value: finite values exactly as rationals. -/
inductive F64 where
  | num : ℚ → F64
  | inf : F64
  | neginf : F64
  | nan : F64
  deriving DecidableEq

/-- IEEE comparison `x >= 0.0`: false for NaN, false for negative values. -/
def F64.ge0 : F64 → Bool
  | .num q => decide (0 ≤ q)
  | .inf => true
  | .neginf => false
  | .nan => false

/-- Run of decimal ASCII digits at the head of the string (Rust `Count ::= Digit+`). -/
def takeDigits : Str → (Str × Str)
  | [] => ([], [])
  | c :: cs =>
    if c.isDigit then (c :: (takeDigits cs).1, (takeDigits cs).2)
    else ([], c :: cs)

/-- Numeric value of a digit run. -/
def digitsVal (ds : Str) : Nat := ds.foldl (fun n c => 10 * n + (c.toNat - 48)) 0

/-- Optional leading sign of a float literal: (isNegative, rest). -/
def readSign : Str → (Bool × Str)
  | '-' :: cs => (true, cs)
  | '+' :: cs => (false, cs)
  | cs => (false, cs)

/-- Case-insensitive comparison with a lowercase keyword. -/
def lowerEq (a b : Str) : Bool := a.map Char.toLower == b

/-- Models Rust `str::parse::<f64>` (the core-library FromStr grammar):
`Sign? ('inf' | 'infinity' | 'nan' | mantissa exponent?)` where the mantissa
is `Digit+ '.'? Digit*` or `'.' Digit+` and the exponent is
`('e'|'E') Sign? Digit+`; the whole input must be consumed.  Finite values
are represented exactly as rationals; overflow to infinity and binary
rounding are not modelled (no claim observes them). -/
def parseF64 (cs0 : Str) : Option F64 :=
  let sgn := readSign cs0
  let neg := sgn.1
  let cs := sgn.2
  if lowerEq cs (("inf").data) || lowerEq cs (("infinity").data) then
    some (if neg then F64.neginf else F64.inf)
  else if lowerEq cs (("nan").data) then some F64.nan
  else
    let ip := takeDigits cs
    let fp :=
      match ip.2 with
      | '.' :: r => takeDigits r
      | _ => (([] : Str), ip.2)
    if ip.1.isEmpty && fp.1.isEmpty then none
    else
      let baseNum : Nat := digitsVal ip.1 * 10 ^ fp.1.length + digitsVal fp.1
      let baseDen : Nat := 10 ^ fp.1.length
      let signed : Nat → ℤ := fun n => if neg then -(n : ℤ) else (n : ℤ)
      match fp.2 with
      | [] => some (F64.num (mkRat (signed baseNum) baseDen))
      | e :: r3 =>
        if e == 'e' || e == 'E' then
          let es := readSign r3
          let ed := takeDigits es.2
          if ed.1.isEmpty || !ed.2.isEmpty then none
          else
            let p : Nat := 10 ^ digitsVal ed.1
            some (F64.num (if es.1 then mkRat (signed baseNum) (baseDen * p)
              else mkRat (signed (baseNum * p)) baseDen))
        else none

/-- Models errors.rs `YoutubeTranscriptError`. -/
inductive YoutubeTranscriptError where
  | TooManyRequests : YoutubeTranscriptError
  | VideoUnavailable : Str → YoutubeTranscriptError
  | TranscriptDisabled : Str → YoutubeTranscriptError
  | TranscriptNotAvailable : Str → YoutubeTranscriptError
  | TranscriptNotAvailableLanguage : Str → List Str → Str → YoutubeTranscriptError
  | InvalidVideoId : YoutubeTranscriptError
  deriving DecidableEq

/-- Models types.rs `TranscriptConfig`. -/
structure TranscriptConfig where
  lang : Option Str
  deriving DecidableEq

/-- Models types.rs `TranscriptResponse`. -/
structure TranscriptResponse where
  text : Str
  duration : F64
  offset : F64
  lang : Str
  deriving DecidableEq

/-- One element of the `captionTracks` JSON array, seen through the only two
observations the code makes of it (`none` = field missing or not a string). -/
structure CaptionTrack where
  languageCode : Option Str
  baseUrl : Option Str
  deriving DecidableEq

/-- Outcome of a Rust computation that can also panic. -/
inductive Res (α : Type) where
  | ok : α → Res α
  | err : YoutubeTranscriptError → Res α
  | panic : Res α
  deriving DecidableEq

/-- Consume an exact literal at the head of the string. -/
def dropLit : Str → Str → Option Str
  | [], cs => some cs
  | _ :: _, [] => none
  | l :: ls, c :: cs => if c == l then dropLit ls cs else none

/-- Unicode class `\s` of the Rust regex crate. -/
def isWsChar (c : Char) : Bool :=
  c == ' ' || c == '\t' || c == '\n' || c == '\x0b' || c == '\x0c' || c == '\r' ||
  c == '\u0085' || c == ' ' || c == ' ' ||
  (decide (' ' ≤ c) && decide (c ≤ ' ')) ||
  c == ' ' || c == ' ' || c == ' ' || c == ' ' || c == '　'

/-- Character class `[^"&?\/\s]` of RE_YOUTUBE (regex.rs). -/
def idChar (c : Char) : Bool :=
  !(c == '"' || c == '&' || c == '?' || c == '/' || isWsChar c)

/-- The capture group `([^"&?\/\s]{11})` of RE_YOUTUBE: exactly 11 class
characters at the head of the string. -/
def take11 (cs : Str) : Option Str :=
  let pre := cs.take 11
  if pre.length == 11 && pre.all idChar then some pre else none

/-- Models `[^\/]+\/` of RE_YOUTUBE: a nonempty run of non-slash characters
followed by a slash.  Deterministic: a shorter run than the maximal one is
followed by a non-slash character, so backtracking cannot pick it. -/
def skipSegLoop : Str → Option Str
  | [] => none
  | c :: cs => if c == '/' then some cs else skipSegLoop cs

/-- Entry point of `[^\/]+\/`: the first character must be a non-slash. -/
def skipSeg : Str → Option Str
  | [] => none
  | c :: cs => if c == '/' then none else skipSegLoop cs

/-- Remainders after each `/` reachable through non-newline characters, in
left-to-right order (`.` of the regex crate does not match a newline). -/
def dotSlashCuts : Str → List Str
  | [] => []
  | c :: cs =>
    if c == '\n' then []
    else (if c == '/' then [cs] else []) ++ dotSlashCuts cs

/-- Models `.+\/` of RE_YOUTUBE: candidate remainders after the terminating
slash, in greedy (longest-first) backtracking order. -/
def dotPlusSlashRems : Str → List Str
  | [] => []
  | c :: cs => if c == '\n' then [] else (dotSlashCuts cs).reverse

/-- Candidate remainders of `.*[?&]v=` in left-to-right order. -/
def dotStarQVRems : Str → List Str
  | [] => []
  | c :: cs =>
    (if c == '?' || c == '&' then
      match cs with
      | 'v' :: '=' :: r => [r]
      | _ => []
    else []) ++
    (if c == '\n' then [] else dotStarQVRems cs)

def litYoutube : Str := ("youtube.com/").data

def litYoutuBe : Str := ("youtu.be/").data

def litV : Str := ("v/").data

def litEmbed : Str := ("embed/").data

def litE : Str := ("e/").data

/-- Candidate remainders after the non-capturing prefix
`(?:youtube\.com\/(?:[^\/]+\/.+\/|(?:v|e(?:mbed)?)\/|.*[?&]v=)|youtu\.be\/)`
of RE_YOUTUBE matched at the head of `cs`, in the engine's leftmost-first
backtracking priority order (alternatives in written order, greedy
quantifiers longest first). -/
def urlRemsAt (cs : Str) : List Str :=
  (match dropLit litYoutube cs with
   | some r =>
     (match skipSeg r with
      | some r2 => dotPlusSlashRems r2
      | none => []) ++
     (match dropLit litV r with
      | some x => [x]
      | none => []) ++
     (match dropLit litEmbed r with
      | some x => [x]
      | none => []) ++
     (match dropLit litE r with
      | some x => [x]
      | none => []) ++
     (dotStarQVRems r).reverse
   | none => []) ++
  (match dropLit litYoutuBe cs with
   | some x => [x]
   | none => [])

/-- First candidate remainder at which the capture group succeeds. -/
def firstCapture : List Str → Option Str
  | [] => none
  | r :: rs =>
    match take11 r with
    | some cap => some cap
    | none => firstCapture rs

/-- Models `Regex::new(RE_YOUTUBE).captures(input)` restricted to capture
group 1: leftmost-first search (start positions left to right; at each start,
backtracking priority order). -/
def searchCapture : Str → Option Str
  | [] => none
  | c :: rest =>
    match firstCapture (urlRemsAt (c :: rest)) with
    | some cap => some cap
    | none => searchCapture rest

/-- Models `YoutubeTranscript::retrieve_video_id` (fetch.rs).  Rust
`str::len` counts UTF-8 bytes, hence `utf8Len`. -/
def retrieve_video_id (video_id : Str) : Except YoutubeTranscriptError Str :=
  if utf8Len video_id = 11 then .ok video_id
  else
    match searchCapture video_id with
    | some cap => .ok cap
    | none => .error .InvalidVideoId

/-- Substring test, models Rust `str::contains` with a literal pattern. -/
def hasSub (pat : Str) : Str → Bool
  | [] => pat.isEmpty
  | c :: cs => (dropLit pat (c :: cs)).isSome || hasSub pat cs

/-- Worker for `splitOnSub`.  The fuel argument only serves termination: each
step either consumes the (nonempty) separator or one character, so fuel
`cs.length + 1` is never exhausted for the nonempty separators used here. -/
def splitGo (sep : Str) : Nat → Str → List Str
  | 0, cs => [cs]
  | fuel + 1, cs =>
    match cs with
    | [] => [[]]
    | c :: rest =>
      match dropLit sep (c :: rest) with
      | some r => [] :: splitGo sep fuel r
      | none =>
        match splitGo sep fuel rest with
        | [] => [[c]]
        | p :: ps => (c :: p) :: ps

/-- Models Rust `str::split` with a literal (nonempty) pattern:
non-overlapping leftmost occurrences separate the parts. -/
def splitOnSub (sep cs : Str) : List Str := splitGo sep (cs.length + 1) cs

def captionsMarker : Str := ("\"captions\":").data

def recaptchaMarker : Str := ("class=\"g-recaptcha\"").data

def playabilityMarker : Str := ("\"playabilityStatus\":").data

/-- Models the error classification of fetch.rs step 7, reached when the
captions marker is absent from the watch-page body. -/
def classifyNoCaptions (video_id body : Str) : YoutubeTranscriptError :=
  if hasSub recaptchaMarker body then .TooManyRequests
  else if !hasSub playabilityMarker body then .VideoUnavailable video_id
  else .TranscriptDisabled video_id

/-- Models fetch.rs steps 6-7: the early return of `fetch_transcript` taken
when splitting the body on the captions marker yields at most one part. -/
def captionsGuard (video_id body : Str) : Option YoutubeTranscriptError :=
  if (splitOnSub captionsMarker body).length ≤ 1 then
    some (classifyNoCaptions video_id body)
  else none

/-- Models fetch.rs step 11: the language-availability check. -/
def langCheck (video_id : Str) (config : Option TranscriptConfig)
    (tracks : List CaptionTrack) : Option YoutubeTranscriptError :=
  match config.bind (·.lang) with
  | none => none
  | some lang =>
    if tracks.any (fun t => decide (t.languageCode = some lang)) then none
    else
      some (.TranscriptNotAvailableLanguage lang
        (tracks.filterMap (·.languageCode)) video_id)

/-- Models the `find` of fetch.rs step 12.  The closure evaluates
`c.lang.clone().unwrap()`, so a present config without a language panics as
soon as the closure runs, that is on the first element of a nonempty list. -/
def findTrackLoop (config : Option TranscriptConfig) :
    List CaptionTrack → Res (Option CaptionTrack)
  | [] => .ok none
  | t :: ts =>
    match config with
    | none => .ok (some t)
    | some c =>
      match c.lang with
      | none => .panic
      | some lang =>
        if t.languageCode = some lang then .ok (some t) else findTrackLoop config ts

/-- Models fetch.rs steps 11-12: resolve the transcript URL from the caption
tracks. -/
def transcriptUrl (video_id : Str) (config : Option TranscriptConfig)
    (tracks : List CaptionTrack) : Res Str :=
  match langCheck video_id config tracks with
  | some e => .err e
  | none =>
    match findTrackLoop config tracks with
    | .panic => .panic
    | .err e => .err e
    | .ok none => .err (.TranscriptNotAvailable video_id)
    | .ok (some t) =>
      match t.baseUrl with
      | some url => .ok url
      | none => .err (.TranscriptNotAvailable video_id)

/-- Maximal run of characters different from `stop`, with the rest. -/
def spanNot (stop : Char) : Str → (Str × Str)
  | [] => ([], [])
  | c :: cs =>
    if c == stop then ([], c :: cs)
    else (c :: (spanNot stop cs).1, (spanNot stop cs).2)

def litTextStart : Str := ("<text start=\"").data

def litDur : Str := ("\" dur=\"").data

def litGt : Str := ("\">").data

def litClose : Str := ("</text>").data

/-- Models one match of RE_XML_TRANSCRIPT
(`<text start="([^"]*)" dur="([^"]*)">([^<]*)<\/text>`, regex.rs) anchored at
the head of `cs`: the three captures and the remainder after the match.  Each
character class excludes the character that terminates it, so the greedy runs
are maximal and matching is deterministic. -/
def matchTextElem (cs : Str) : Option (Str × Str × Str × Str) :=
  match dropLit litTextStart cs with
  | none => none
  | some r1 =>
    match dropLit litDur (spanNot '"' r1).2 with
    | none => none
    | some r3 =>
      match dropLit litGt (spanNot '"' r3).2 with
      | none => none
      | some r5 =>
        match dropLit litClose (spanNot '<' r5).2 with
        | none => none
        | some r7 =>
          some ((spanNot '"' r1).1, (spanNot '"' r3).1, (spanNot '<' r5).1, r7)

/-- Worker for `scanTranscript`.  The fuel argument only serves termination:
a successful match consumes at least the 29 literal characters of the
pattern and a failed position consumes one character, so fuel `cs.length`
is never exhausted. -/
def scanGo : Nat → Str → List (Str × Str × Str)
  | 0, _ => []
  | fuel + 1, cs =>
    match cs with
    | [] => []
    | _ :: rest =>
      match matchTextElem cs with
      | some (s, d, t, r) => (s, d, t) :: scanGo fuel r
      | none => scanGo fuel rest

/-- Models `captures_iter` of fetch.rs step 14 with RE_XML_TRANSCRIPT:
successive non-overlapping leftmost matches, in document order. -/
def scanTranscript (cs : Str) : List (Str × Str × Str) := scanGo cs.length cs

/-- Models the body of the step 14 closure, given the already-resolved
language: `text` is capture 3 verbatim, `duration` and `offset` are the
numeric parses of captures 2 and 1 with default 0.0. -/
def mkEntry (lang : Str) (m : Str × Str × Str) : TranscriptResponse :=
  { text := m.2.2
    duration := (parseF64 m.2.1).getD (.num 0)
    offset := (parseF64 m.1).getD (.num 0)
    lang := lang }

/-- Models the `lang` expression of the step 14 closure:
`config.lang` if set, else
`caption_tracks[0]["languageCode"].as_str().unwrap()`; the indexing of an
empty array and the unwrap of a missing or non-string code both panic. -/
def entryLangRes (config : Option TranscriptConfig)
    (tracks : List CaptionTrack) : Res Str :=
  match config.bind (·.lang) with
  | some l => .ok l
  | none =>
    match tracks.head? with
    | none => .panic
    | some t =>
      match t.languageCode with
      | some l => .ok l
      | none => .panic

/-- Models fetch.rs step 14: build the entries from the transcript body.  The
closure runs once per match, so the language expression is only evaluated
(and can only panic) when there is at least one match. -/
def buildEntries (config : Option TranscriptConfig) (tracks : List CaptionTrack)
    (body : Str) : Res (List TranscriptResponse) :=
  match scanTranscript body with
  | [] => .ok []
  | m :: ms =>
    match entryLangRes config tracks with
    | .ok l => .ok ((m :: ms).map (mkEntry l))
    | .err e => .err e
    | .panic => .panic

/-- Models fetch.rs steps 11-14.  The transcript HTTP fetch of step 13 is an
oracle from URL to response body; `none` stands for a transport error or a
non-success status, both mapped to `TranscriptNotAvailable`. -/
def processTracks (video_id : Str) (config : Option TranscriptConfig)
    (tracks : List CaptionTrack) (fetchTr : Str → Option Str) :
    Res (List TranscriptResponse) :=
  match transcriptUrl video_id config tracks with
  | .err e => .err e
  | .panic => .panic
  | .ok url =>
    match fetchTr url with
    | none => .err (.TranscriptNotAvailable video_id)
    | some body => buildEntries config tracks body

/-- The exact string shape captured by RE_XML_TRANSCRIPT (spec vocabulary for
the amended C8). -/
def textElemStr (s d t : Str) : Str :=
  litTextStart ++ s ++ litDur ++ d ++ litGt ++ t ++ litClose

/-- Spec vocabulary for the amended C5: the attribute either fails numeric
parsing (and will default to 0.0) or parses to a value that is `>= 0.0`. -/
def parsesNonneg (s : Str) : Bool := F64.ge0 ((parseF64 s).getD F64.inf)

/-- Document used by the C8 counterexample: its outer element's `dur`
attribute contains the opening of a second, overlapping element occurrence. -/
def c8doc : Str :=
  ("<text start=\"1\" dur=\"x<text start=\">T</text>\" dur=\"2\">Y</text>").data

theorem dropLit_spec : ∀ (l cs r : Str), dropLit l cs = some r → cs = l ++ r := by
  intro l
  induction l with
  | nil =>
    intro cs r h
    simp [dropLit] at h
    simp [h]
  | cons a l ih =>
    intro cs r h
    cases cs with
    | nil => simp [dropLit] at h
    | cons c cs =>
      simp only [dropLit] at h
      split at h
      · next hc =>
        obtain rfl : c = a := by simpa using hc
        simp [ih cs r h]
      · simp at h

theorem spanNot_append (stop : Char) (cs : Str) :
    (spanNot stop cs).1 ++ (spanNot stop cs).2 = cs := by
  induction cs with
  | nil => rfl
  | cons c cs ih =>
    simp only [spanNot]
    split
    · rfl
    · simpa using ih

theorem spanNot_not_stop (stop : Char) (cs : Str) :
    ∀ c ∈ (spanNot stop cs).1, c ≠ stop := by
  induction cs with
  | nil => simp [spanNot]
  | cons c cs ih =>
    simp only [spanNot]
    split
    · simp
    · next h =>
      simp only [List.mem_cons]
      rintro x (rfl | hx)
      · simpa using h
      · exact ih x hx

theorem matchTextElem_spec {cs s d t r : Str}
    (h : matchTextElem cs = some (s, d, t, r)) :
    cs = textElemStr s d t ++ r ∧ ∀ c ∈ t, c ≠ '<' := by
  unfold matchTextElem at h
  split at h
  · simp at h
  · next r1 h1 =>
    split at h
    · simp at h
    · next r3 h2 =>
      split at h
      · simp at h
      · next r5 h3 =>
        split at h
        · simp at h
        · next r7 h4 =>
          simp only [Option.some.injEq, Prod.mk.injEq] at h
          obtain ⟨hs, hd, ht, hr⟩ := h
          subst hs hd ht hr
          refine ⟨?_, spanNot_not_stop '<' r5⟩
          have e1 := dropLit_spec _ _ _ h1
          have e2 := spanNot_append '"' r1
          have e3 := dropLit_spec _ _ _ h2
          have e4 := spanNot_append '"' r3
          have e5 := dropLit_spec _ _ _ h3
          have e6 := spanNot_append '<' r5
          have e7 := dropLit_spec _ _ _ h4
          calc cs = litTextStart ++ r1 := e1
            _ = litTextStart ++ ((spanNot '"' r1).1 ++ (spanNot '"' r1).2) := by
                rw [e2]
            _ = litTextStart ++ ((spanNot '"' r1).1 ++ (litDur ++ r3)) := by
                rw [← e3]
            _ = litTextStart ++ ((spanNot '"' r1).1 ++ (litDur ++
                  ((spanNot '"' r3).1 ++ (spanNot '"' r3).2))) := by rw [e4]
            _ = litTextStart ++ ((spanNot '"' r1).1 ++ (litDur ++
                  ((spanNot '"' r3).1 ++ (litGt ++ r5)))) := by rw [← e5]
            _ = litTextStart ++ ((spanNot '"' r1).1 ++ (litDur ++
                  ((spanNot '"' r3).1 ++ (litGt ++
                    ((spanNot '<' r5).1 ++ (spanNot '<' r5).2))))) := by rw [e6]
            _ = litTextStart ++ ((spanNot '"' r1).1 ++ (litDur ++
                  ((spanNot '"' r3).1 ++ (litGt ++
                    ((spanNot '<' r5).1 ++ (litClose ++ r7)))))) := by rw [← e7]
            _ = textElemStr (spanNot '"' r1).1 (spanNot '"' r3).1
                  (spanNot '<' r5).1 ++ r7 := by
                simp [textElemStr, List.append_assoc]

theorem scanGo_sound (fuel : Nat) :
    ∀ (cs : Str) (m : Str × Str × Str), m ∈ scanGo fuel cs →
      (∃ pre post, cs = pre ++ textElemStr m.1 m.2.1 m.2.2 ++ post) ∧
        ∀ c ∈ m.2.2, c ≠ '<' := by
  induction fuel with
  | zero =>
    intro cs m hm
    simp [scanGo] at hm
  | succ fuel ih =>
    intro cs m hm
    cases cs with
    | nil => simp [scanGo] at hm
    | cons c rest =>
      rw [scanGo] at hm
      cases hmt : matchTextElem (c :: rest) with
      | some q =>
        obtain ⟨s, d, t, r⟩ := q
        rw [hmt] at hm
        simp only [List.mem_cons] at hm
        obtain ⟨hdec, htext⟩ := matchTextElem_spec hmt
        rcases hm with rfl | hm
        · exact ⟨⟨[], r, by simpa using hdec⟩, htext⟩
        · obtain ⟨⟨pre, post, hr⟩, ht⟩ := ih r m hm
          refine ⟨⟨textElemStr s d t ++ pre, post, ?_⟩, ht⟩
          rw [hdec, hr]
          simp [List.append_assoc]
      | none =>
        rw [hmt] at hm
        obtain ⟨⟨pre, post, hr⟩, ht⟩ := ih rest m hm
        exact ⟨⟨c :: pre, post, by simp [hr]⟩, ht⟩

theorem findTrackLoop_some (lang : Str) (tracks : List CaptionTrack) :
    findTrackLoop (some ⟨some lang⟩) tracks =
      .ok (tracks.find? (fun t => decide (t.languageCode = some lang))) := by
  induction tracks with
  | nil => rfl
  | cons t ts ih =>
    simp only [findTrackLoop, List.find?]
    by_cases hc : t.languageCode = some lang
    · simp [hc]
    · simp [hc, ih]

/-- C1: the claim "config absent, or config present with no lang, selects the
first track" fails in its second half.  With no config at all, selection
indeed returns the first track's baseUrl (first conjunct: the first track is
chosen over the second regardless of language); but with a present config
whose lang is unset and a nonempty track list, the `unwrap` inside the step
12 `find` closure panics instead of selecting anything (second conjunct). -/
theorem c1_unset_lang_selection :
    transcriptUrl (("dQw4w9WgXcQ").data) none
      [⟨some (("de").data), some (("https://yt/api1").data)⟩,
       ⟨some (("en").data), some (("https://yt/api2").data)⟩] =
      .ok (("https://yt/api1").data) ∧
    transcriptUrl (("dQw4w9WgXcQ").data) (some ⟨none⟩)
      [⟨some (("de").data), some (("https://yt/api1").data)⟩,
       ⟨some (("en").data), some (("https://yt/api2").data)⟩] = .panic := by
  decide

/-- C2: when splitting the watch-page body on the captions marker yields at
most one part, fetch_transcript takes the early-return guard with exactly the
three-way classification, decided in the documented order: recaptcha marker
first, then missing playability marker, then the disabled fallback. -/
theorem c2_no_captions_error_order (video_id body : Str)
    (h : (splitOnSub captionsMarker body).length ≤ 1) :
    captionsGuard video_id body = some (classifyNoCaptions video_id body) ∧
    (hasSub recaptchaMarker body = true →
      classifyNoCaptions video_id body = .TooManyRequests) ∧
    (hasSub recaptchaMarker body = false →
      hasSub playabilityMarker body = false →
      classifyNoCaptions video_id body = .VideoUnavailable video_id) ∧
    (hasSub recaptchaMarker body = false →
      hasSub playabilityMarker body = true →
      classifyNoCaptions video_id body = .TranscriptDisabled video_id) := by
  refine ⟨by simp [captionsGuard, h], ?_, ?_, ?_⟩
  · intro hr
    simp [classifyNoCaptions, hr]
  · intro hr hp
    simp [classifyNoCaptions, hr, hp]
  · intro hr hp
    simp [classifyNoCaptions, hr, hp]

theorem c2_no_captions_error_order_witness :
    captionsGuard (("v01234567890").data) (("<html></html>").data) =
      some (classifyNoCaptions (("v01234567890").data) (("<html></html>").data)) ∧
    (hasSub recaptchaMarker (("<html></html>").data) = true →
      classifyNoCaptions (("v01234567890").data) (("<html></html>").data) =
        .TooManyRequests) ∧
    (hasSub recaptchaMarker (("<html></html>").data) = false →
      hasSub playabilityMarker (("<html></html>").data) = false →
      classifyNoCaptions (("v01234567890").data) (("<html></html>").data) =
        .VideoUnavailable (("v01234567890").data)) ∧
    (hasSub recaptchaMarker (("<html></html>").data) = false →
      hasSub playabilityMarker (("<html></html>").data) = true →
      classifyNoCaptions (("v01234567890").data) (("<html></html>").data) =
        .TranscriptDisabled (("v01234567890").data)) :=
  c2_no_captions_error_order (("v01234567890").data) (("<html></html>").data)
    (by decide)

/-- C6 counterexample: a string of exactly 11 characters whose UTF-8 encoding
is 22 bytes is NOT returned unchanged; `video_id.len() == 11` in fetch.rs
counts bytes, the URL pattern then fails, and the call returns
InvalidVideoId. -/
theorem c6_eleven_chars_counterexample :
    (("ααααααααααα").data).length = 11 ∧
    retrieve_video_id (("ααααααααααα").data) = .error .InvalidVideoId := by
  decide

/-- C6 (amended): an input whose UTF-8 encoding is exactly 11 bytes is
returned unchanged, with no validation of its character set. -/
theorem c6_eleven_bytes_amended (s : Str) (h : utf8Len s = 11) :
    retrieve_video_id s = .ok s := by
  unfold retrieve_video_id
  rw [if_pos h]

theorem c6_eleven_bytes_amended_witness :
    utf8Len (("dQw4w9WgXcQ").data) = 11 ∧
    retrieve_video_id (("dQw4w9WgXcQ").data) = .ok (("dQw4w9WgXcQ").data) :=
  ⟨by decide, c6_eleven_bytes_amended (("dQw4w9WgXcQ").data) (by decide)⟩

/-- C9 counterexample: a 6-character input ("αααααa"), hence not 11
characters and matching no YouTube URL shape, is nevertheless returned
unchanged (not InvalidVideoId), because its UTF-8 encoding happens to be 11
bytes and fetch.rs measures `len()` in bytes. -/
theorem c9_byte_length_counterexample :
    (("αααααa").data).length ≠ 11 ∧
    searchCapture (("αααααa").data) = none ∧
    retrieve_video_id (("αααααa").data) = .ok (("αααααa").data) := by
  decide

/-- C9 (amended): an input whose UTF-8 encoding is not exactly 11 bytes and
on which the RE_YOUTUBE search finds no match fails with InvalidVideoId;
nothing partial is returned. -/
theorem c9_invalid_id_amended (s : Str) (h1 : utf8Len s ≠ 11)
    (h2 : searchCapture s = none) :
    retrieve_video_id s = .error .InvalidVideoId := by
  unfold retrieve_video_id
  rw [if_neg h1, h2]

theorem c9_invalid_id_amended_witness :
    utf8Len (("https://www.example.com/watch?v=dQw4w9WgXcQ").data) ≠ 11 ∧
    searchCapture (("https://www.example.com/watch?v=dQw4w9WgXcQ").data) = none ∧
    retrieve_video_id (("https://www.example.com/watch?v=dQw4w9WgXcQ").data) =
      .error .InvalidVideoId :=
  ⟨by decide, by decide,
    c9_invalid_id_amended (("https://www.example.com/watch?v=dQw4w9WgXcQ").data)
      (by decide) (by decide)⟩

/-- C3: with a requested language over a nonempty track list, (i) if no track
has that exact (case-sensitive) code, URL resolution fails with
TranscriptNotAvailableLanguage carrying the requested language, the language
codes present in the tracks in their original order, and the video id;
(ii) otherwise the step 12 find selects the first track with that code, and
URL resolution returns that track's baseUrl when it has one. -/
theorem c3_language_negotiation (video_id lang : Str)
    (tracks : List CaptionTrack) (_hne : tracks ≠ []) :
    ((∀ t ∈ tracks, t.languageCode ≠ some lang) →
      transcriptUrl video_id (some ⟨some lang⟩) tracks =
        .err (.TranscriptNotAvailableLanguage lang
          (tracks.filterMap (·.languageCode)) video_id)) ∧
    (∀ t0, tracks.find? (fun t => decide (t.languageCode = some lang)) = some t0 →
      findTrackLoop (some ⟨some lang⟩) tracks = .ok (some t0) ∧
      ∀ url, t0.baseUrl = some url →
        transcriptUrl video_id (some ⟨some lang⟩) tracks = .ok url) := by
  constructor
  · intro hno
    have hany : tracks.any (fun t => decide (t.languageCode = some lang)) = false := by
      rw [Bool.eq_false_iff]
      intro habs
      rw [List.any_eq_true] at habs
      obtain ⟨t, ht, hdec⟩ := habs
      exact hno t ht (by simpa using hdec)
    simp [transcriptUrl, langCheck, hany]
  · intro t0 hfind
    have hmem := List.mem_of_find?_eq_some hfind
    have hp : t0.languageCode = some lang := by
      simpa using List.find?_some hfind
    have hany : tracks.any (fun t => decide (t.languageCode = some lang)) = true := by
      simp only [List.any_eq_true, decide_eq_true_eq]
      exact ⟨t0, hmem, hp⟩
    refine ⟨by rw [findTrackLoop_some, hfind], ?_⟩
    intro url hurl
    simp [transcriptUrl, langCheck, hany, findTrackLoop_some, hfind, hurl]

theorem c3_language_negotiation_witness :
    ((∀ t ∈ ([⟨some (("en").data), some (("u1").data)⟩] : List CaptionTrack),
      t.languageCode ≠ some (("fr").data)) →
      transcriptUrl (("dQw4w9WgXcQ").data) (some ⟨some (("fr").data)⟩)
        [⟨some (("en").data), some (("u1").data)⟩] =
        .err (.TranscriptNotAvailableLanguage (("fr").data)
          (([⟨some (("en").data), some (("u1").data)⟩] :
            List CaptionTrack).filterMap (·.languageCode))
          (("dQw4w9WgXcQ").data))) ∧
    (∀ t0, ([⟨some (("en").data), some (("u1").data)⟩] :
        List CaptionTrack).find?
          (fun t => decide (t.languageCode = some (("fr").data))) = some t0 →
      findTrackLoop (some ⟨some (("fr").data)⟩)
        [⟨some (("en").data), some (("u1").data)⟩] = .ok (some t0) ∧
      ∀ url, t0.baseUrl = some url →
        transcriptUrl (("dQw4w9WgXcQ").data) (some ⟨some (("fr").data)⟩)
          [⟨some (("en").data), some (("u1").data)⟩] = .ok url) :=
  c3_language_negotiation (("dQw4w9WgXcQ").data) (("fr").data)
    [⟨some (("en").data), some (("u1").data)⟩] (by decide)

/-- C4: in every successful run of steps 11-14, each produced entry's lang is
`config.lang` when that is set, and otherwise is the language code of the
FIRST caption track of the extracted list, whichever track was fetched. -/
theorem c4_entry_lang_source (video_id : Str) (config : Option TranscriptConfig)
    (tracks : List CaptionTrack) (fetchTr : Str → Option Str)
    (es : List TranscriptResponse) (e : TranscriptResponse)
    (hok : processTracks video_id config tracks fetchTr = .ok es) (he : e ∈ es) :
    (∀ l, config.bind (·.lang) = some l → e.lang = l) ∧
    (config.bind (·.lang) = none →
      ∃ t, tracks.head? = some t ∧ t.languageCode = some e.lang) := by
  unfold processTracks at hok
  split at hok
  · simp at hok
  · simp at hok
  · split at hok
    · simp at hok
    · unfold buildEntries at hok
      split at hok
      · next hscan =>
        cases hok
        simp at he
      · next m ms hscan =>
        split at hok
        · next l hlang =>
          cases hok
          obtain ⟨m0, hm0, rfl⟩ := List.mem_map.1 he
          unfold entryLangRes at hlang
          split at hlang
          · next l0 hbind =>
            cases hlang
            refine ⟨fun l' hl' => ?_, fun hnone => ?_⟩
            · rw [hbind] at hl'
              cases hl'
              simp [mkEntry]
            · rw [hbind] at hnone
              cases hnone
          · next hbind =>
            split at hlang
            · simp at hlang
            · next t hhead =>
              split at hlang
              · next l0 hcode =>
                cases hlang
                refine ⟨fun l' hl' => ?_, fun _ => ⟨t, hhead, ?_⟩⟩
                · rw [hbind] at hl'
                  cases hl'
                · simpa [mkEntry] using hcode
              · simp at hlang
        · simp at hok
        · simp at hok

theorem c4_entry_lang_source_witness :
    (∀ l, (none : Option TranscriptConfig).bind (·.lang) = some l →
      (TranscriptResponse.mk (("A").data) (.num (mkRat 2 1)) (.num (mkRat 1 1))
        (("en").data)).lang = l) ∧
    ((none : Option TranscriptConfig).bind (·.lang) = none →
      ∃ t, ([⟨some (("en").data), some (("u").data)⟩] :
          List CaptionTrack).head? = some t ∧
        t.languageCode = some (TranscriptResponse.mk (("A").data)
          (.num (mkRat 2 1)) (.num (mkRat 1 1)) (("en").data)).lang) :=
  c4_entry_lang_source (("v").data) none
    [⟨some (("en").data), some (("u").data)⟩]
    (fun _ => some (("<text start=\"1\" dur=\"2\">A</text>").data))
    [⟨(("A").data), .num (mkRat 2 1), .num (mkRat 1 1), (("en").data)⟩]
    ⟨(("A").data), .num (mkRat 2 1), .num (mkRat 1 1), (("en").data)⟩
    (by decide) (by decide)

/-- C5 counterexample: a transcript document whose start attribute is "-1.5"
produces an entry with offset -1.5, for which the comparison `offset >= 0.0`
is false; `parse::<f64>()` accepts negative values and no clamping occurs. -/
theorem c5_negative_offset_counterexample :
    buildEntries (some ⟨some (("en").data)⟩) []
      (("<text start=\"-1.5\" dur=\"2.0\">Hi</text>").data) =
      .ok [⟨(("Hi").data), .num (mkRat 2 1), .num (mkRat (-3) 2), (("en").data)⟩] ∧
    F64.ge0 (.num (mkRat (-3) 2)) = false := by
  decide

/-- C5 (amended): every entry produced by a successful build has offset and
duration that satisfy `>= 0.0`, provided each start/dur attribute in the
document either fails numeric parsing (defaulting to 0.0) or parses to a
value that satisfies `>= 0.0`. -/
theorem c5_nonneg_amended (config : Option TranscriptConfig)
    (tracks : List CaptionTrack) (body : Str) (es : List TranscriptResponse)
    (hok : buildEntries config tracks body = .ok es)
    (hattr : ∀ m ∈ scanTranscript body,
      parsesNonneg m.1 = true ∧ parsesNonneg m.2.1 = true) :
    ∀ e ∈ es, F64.ge0 e.offset = true ∧ F64.ge0 e.duration = true := by
  intro e he
  unfold buildEntries at hok
  split at hok
  · cases hok
    simp at he
  · next m ms hscan =>
    split at hok
    · cases hok
      obtain ⟨m0, hm0, rfl⟩ := List.mem_map.1 he
      obtain ⟨ho, hd⟩ := hattr m0 (by rw [hscan]; exact hm0)
      constructor
      · unfold parsesNonneg at ho
        cases hp : parseF64 m0.1 with
        | none =>
          simp only [mkEntry, hp, Option.getD_none]
          decide
        | some v =>
          rw [hp] at ho
          simpa [mkEntry, hp] using ho
      · unfold parsesNonneg at hd
        cases hp : parseF64 m0.2.1 with
        | none =>
          simp only [mkEntry, hp, Option.getD_none]
          decide
        | some v =>
          rw [hp] at hd
          simpa [mkEntry, hp] using hd
    · simp at hok
    · simp at hok

theorem c5_nonneg_amended_witness :
    F64.ge0 (TranscriptResponse.offset ⟨(("Hi").data), .num (mkRat 2 1),
      .num (mkRat 3 2), (("en").data)⟩) = true ∧
    F64.ge0 (TranscriptResponse.duration ⟨(("Hi").data), .num (mkRat 2 1),
      .num (mkRat 3 2), (("en").data)⟩) = true :=
  c5_nonneg_amended (some ⟨some (("en").data)⟩) []
    (("<text start=\"1.5\" dur=\"2.0\">Hi</text><text start=\"3.5\" dur=\"1.0\">Bye</text>").data)
    [⟨(("Hi").data), .num (mkRat 2 1), .num (mkRat 3 2), (("en").data)⟩,
     ⟨(("Bye").data), .num (mkRat 1 1), .num (mkRat 7 2), (("en").data)⟩]
    (by decide) (by decide)
    ⟨(("Hi").data), .num (mkRat 2 1), .num (mkRat 3 2), (("en").data)⟩
    (by decide)

/-- C7: whenever the language expression resolves (lang set, or fallback
available), the build step returns Ok for EVERY transcript body, and each
entry's offset (resp. duration) is the numeric parse of the captured start
(resp. dur) attribute, with 0.0 substituted when the parse fails; malformed
attributes never fail an entry or the request. -/
theorem c7_numeric_parse_defaults (config : Option TranscriptConfig)
    (tracks : List CaptionTrack) (body : Str) (lang : Str)
    (hl : entryLangRes config tracks = .ok lang) :
    ∃ es, buildEntries config tracks body = .ok es ∧
      es.map (·.offset) =
        (scanTranscript body).map (fun m => (parseF64 m.1).getD (.num 0)) ∧
      es.map (·.duration) =
        (scanTranscript body).map (fun m => (parseF64 m.2.1).getD (.num 0)) := by
  unfold buildEntries
  cases hs : scanTranscript body with
  | nil => exact ⟨[], rfl, by simp, by simp⟩
  | cons m ms =>
    rw [hl]
    refine ⟨(m :: ms).map (mkEntry lang), rfl, ?_, ?_⟩ <;>
      simp [mkEntry, Function.comp]

theorem c7_numeric_parse_defaults_witness :
    ∃ es, buildEntries (some ⟨some (("en").data)⟩) []
        (("<text start=\"abc\" dur=\"1\">x</text>").data) = .ok es ∧
      es.map (·.offset) =
        (scanTranscript (("<text start=\"abc\" dur=\"1\">x</text>").data)).map
          (fun m => (parseF64 m.1).getD (.num 0)) ∧
      es.map (·.duration) =
        (scanTranscript (("<text start=\"abc\" dur=\"1\">x</text>").data)).map
          (fun m => (parseF64 m.2.1).getD (.num 0)) :=
  c7_numeric_parse_defaults (some ⟨some (("en").data)⟩) []
    (("<text start=\"abc\" dur=\"1\">x</text>").data) (("en").data) (by decide)

/-- C8 counterexample: this document contains two (overlapping) substrings of
the captured shape — the whole outer element, and a second full occurrence
starting at offset 22, inside the outer element's dur attribute (witnessed by
`matchTextElem` succeeding there) — yet the scan returns only one entry, and
none of its captures are those of the second occurrence.  So "one entry per
substring matching the shape" fails as literally stated. -/
theorem c8_overlap_counterexample :
    scanTranscript c8doc = [((("1").data), (("x<text start=").data), (("T").data))] ∧
    matchTextElem (c8doc.drop 22) =
      some (((">T</text>").data), (("2").data), (("Y").data), ([] : Str)) := by
  decide

/-- C8 (amended): the parser emits one entry per match found by a
left-to-right non-overlapping scan of the document (matching substrings that
overlap an earlier match are skipped, as are portions matching nothing, and
neither causes an error).  Every emitted triple is an exact, verbatim
substring occurrence of the shape (first conjunct), and on the spec's example
document the scan yields exactly the two entries in document order (second
conjunct). -/
theorem c8_scan_amended (body : Str) :
    (∀ m ∈ scanTranscript body,
      ∃ pre post, body = pre ++ textElemStr m.1 m.2.1 m.2.2 ++ post) ∧
    scanTranscript
      (("<text start=\"1.5\" dur=\"2.0\">Hi</text><text start=\"3.5\" dur=\"1.0\">Bye</text>").data) =
      [((("1.5").data), (("2.0").data), (("Hi").data)),
       ((("3.5").data), (("1.0").data), (("Bye").data))] := by
  refine ⟨fun m hm => (scanGo_sound body.length body m hm).1, by decide⟩

theorem c8_scan_amended_witness :
    ∃ pre post,
      (("<text start=\"1.5\" dur=\"2.0\">Hi</text><text start=\"3.5\" dur=\"1.0\">Bye</text>").data : Str) =
        pre ++ textElemStr (("3.5").data) (("1.0").data) (("Bye").data) ++ post :=
  (c8_scan_amended
    (("<text start=\"1.5\" dur=\"2.0\">Hi</text><text start=\"3.5\" dur=\"1.0\">Bye</text>").data)).1
    ((("3.5").data), (("1.0").data), (("Bye").data)) (by decide)

/-- C10: the text of every entry produced by a successful build contains no
'<' character (the capture class `[^<]*` excludes it), so no entry text can
contain a nested or unterminated text tag. -/
theorem c10_text_no_angle (config : Option TranscriptConfig)
    (tracks : List CaptionTrack) (body : Str) (es : List TranscriptResponse)
    (e : TranscriptResponse) (hok : buildEntries config tracks body = .ok es)
    (he : e ∈ es) : ∀ c ∈ e.text, c ≠ '<' := by
  unfold buildEntries at hok
  split at hok
  · cases hok
    simp at he
  · next m ms hscan =>
    split at hok
    · cases hok
      obtain ⟨m0, hm0, rfl⟩ := List.mem_map.1 he
      have hs := scanGo_sound body.length body m0 (by rw [← hscan] at hm0; exact hm0)
      simpa [mkEntry] using hs.2
    · simp at hok
    · simp at hok

theorem c10_text_no_angle_witness : 'H' ≠ '<' :=
  c10_text_no_angle (some ⟨some (("en").data)⟩) []
    (("<text start=\"1.5\" dur=\"2.0\">Hi</text>").data)
    [⟨(("Hi").data), .num (mkRat 2 1), .num (mkRat 3 2), (("en").data)⟩]
    ⟨(("Hi").data), .num (mkRat 2 1), .num (mkRat 3 2), (("en").data)⟩
    (by decide) (by decide) 'H' (by decide)
